import Mathlib

/-!
Shallow embedding of `src/personal_project.py`, a single-session stock
trading simulation. Money values (Python floats) are modelled as exact
rationals; Python integers are modelled as `Int`. Randomness is modelled
by an explicit draw stream `r : Nat -> Rat` holding the realized values
the global RNG would produce, consumed left to right; this makes the
generator a pure function of the stream, as the code is a pure function
of the global RNG state.
-/

namespace StockSim

/-- `random.uniform a b` as a function of the raw draw `u` in `[0,1)`:
CPython computes `a + (b - a) * u`. -/
def randUniform (a b u : ℚ) : ℚ := a + (b - a) * u

/-- One step of the walk, from `personal_project.py` lines 23-25:
`new_price = prices[-1] * (1 + shock)` followed by
`new_price = max(new_price, 1)`. -/
def nextPrice (prev shock : ℚ) : ℚ := max (prev * (1 + shock)) 1

/-- The inner loop of `generate_realistic_stock_data` (lines 20-26):
`prices = [initial_price]`, then one `nextPrice` step per shock drawn. -/
def genPrices : ℚ → List ℚ → List ℚ
  | p, [] => [p]
  | p, s :: rest => p :: genPrices (nextPrice p s) rest

/-- The per-ticker body of `generate_realistic_stock_data` (lines 14-26):
an initial price `random.uniform(50, 150)` from the draw at cursor `c`,
then `num_days - 1` shocks from the following draws. The drift and
volatility only parameterize the distribution the shock draws come from;
the realized shocks are the stream values themselves. -/
def tickerPrices (r : Nat → ℚ) (c num_days : Nat) : List ℚ :=
  genPrices (randUniform 50 150 (r c))
    ((List.range (num_days - 1)).map (fun j => r (c + 1 + j)))

/-- The ticker loop of `generate_realistic_stock_data` (lines 12-33):
ticker `i` (named `Stock i+1`) consumes the `num_days` draws starting at
cursor `i * num_days` (one initial draw plus `num_days - 1` shocks). -/
def generateSeries (r : Nat → ℚ) (num_stocks num_days : Nat) : List (List ℚ) :=
  (List.range num_stocks).map (fun i => tickerPrices r (i * num_days) num_days)

/-- Outcome of a call to the generator. `ok` carries the per-ticker price
sequences (the `Price` column of each concatenated frame, in ticker
order). `valueError` models an uncaught pandas `ValueError` (raised by
`pd.concat` on an empty list, by `pd.date_range` on negative `periods`,
or by the `DataFrame` constructor on mismatched column lengths).
`invalidParameter` is the rejection result named by the error taxonomy of
the specification; it is included so that theorems can state whether the
code ever produces it. -/
inductive GenResult where
  | ok (series : List (List ℚ))
  | valueError
  | invalidParameter
deriving DecidableEq

/-- `generate_realistic_stock_data(num_stocks, num_days)` (lines 8-35).
With `num_stocks = 0` the ticker loop never runs and `pd.concat([])`
raises `ValueError`; otherwise `num_days < 0` makes `pd.date_range`
raise and `num_days = 0` makes the `DataFrame` constructor raise (the
`prices` list has length 1 while `dates` has length 0). With positive
inputs it returns the generated series. -/
def generate_realistic_stock_data (r : Nat → ℚ) (num_stocks : Nat) (num_days : Int) :
    GenResult :=
  if num_stocks = 0 then .valueError
  else if num_days ≤ 0 then .valueError
  else .ok (generateSeries r num_stocks num_days.toNat)

/-- Side of a `transaction_history` entry: the string `"Buy"` or `"Sell"`
of lines 49 and 57. -/
inductive Side where
  | buy
  | sell
deriving DecidableEq

/-- Result of `buy_stock` / `sell_stock`: the four return strings of
lines 50, 51, 58, 59. `bought q t p` stands for
`f"Bought {q} shares of {t} at ${p:.2f}"`, `sold` likewise;
`insufficientFunds` is `"Not enough balance to complete the transaction."`
and `insufficientShares` is `"Not enough shares to sell."`. -/
inductive TradeResult where
  | bought (quantity : Int) (ticker : String) (price : ℚ)
  | sold (quantity : Int) (ticker : String) (price : ℚ)
  | insufficientFunds
  | insufficientShares
deriving DecidableEq

/-- The `Portfolio` state (lines 39-42): `self.balance`, `self.stocks`
(a Python dict modelled as an insertion-ordered association list) and
`self.transaction_history` (entries `(ticker, side, quantity, price)`). -/
structure Portfolio where
  balance : ℚ
  stocks : List (String × Int)
  transaction_history : List (String × Side × Int × ℚ)
deriving DecidableEq

/-- `Portfolio.__init__(initial_balance)` (lines 39-42). -/
def Portfolio.init (initial_balance : ℚ) : Portfolio :=
  ⟨initial_balance, [], []⟩

/-- `self.stocks.get(ticker, 0)`: the value stored for `ticker`, `0` when
absent. -/
def getQty (stocks : List (String × Int)) (t : String) : Int :=
  match stocks.find? (fun q => q.1 == t) with
  | some q => q.2
  | none => 0

/-- `ticker in self.stocks`: dict key membership. -/
def hasTicker (stocks : List (String × Int)) (t : String) : Bool :=
  stocks.any (fun q => q.1 == t)

/-- `self.stocks[ticker] = n`: dict assignment. Updating a present key
keeps its position; a fresh key is appended at the end, as Python dicts
preserve insertion order. -/
def setQty (stocks : List (String × Int)) (t : String) (n : Int) :
    List (String × Int) :=
  if hasTicker stocks t then
    stocks.map (fun q => if q.1 == t then (t, n) else q)
  else
    stocks ++ [(t, n)]

/-- `Portfolio.buy_stock(ticker, price, quantity)` (lines 44-51). -/
def buy_stock (p : Portfolio) (ticker : String) (price : ℚ) (quantity : Int) :
    TradeResult × Portfolio :=
  let total_cost := price * (quantity : ℚ)
  if total_cost ≤ p.balance then
    (.bought quantity ticker price,
      ⟨p.balance - total_cost,
       setQty p.stocks ticker (getQty p.stocks ticker + quantity),
       p.transaction_history ++ [(ticker, Side.buy, quantity, price)]⟩)
  else
    (.insufficientFunds, p)

/-- `Portfolio.sell_stock(ticker, price, quantity)` (lines 53-59). -/
def sell_stock (p : Portfolio) (ticker : String) (price : ℚ) (quantity : Int) :
    TradeResult × Portfolio :=
  if hasTicker p.stocks ticker ∧ quantity ≤ getQty p.stocks ticker then
    (.sold quantity ticker price,
      ⟨p.balance + price * (quantity : ℚ),
       setQty p.stocks ticker (getQty p.stocks ticker - quantity),
       p.transaction_history ++ [(ticker, Side.sell, quantity, price)]⟩)
  else
    (.insufficientShares, p)

/-- The Python format `f"{x:.2f}"` for the exact rationals arising here:
the value in cents, rounded to nearest, printed with two decimals. -/
def toFixed2 (q : ℚ) : String :=
  let sign := if q < 0 then "-" else ""
  let n := (round (|q| * 100)).toNat
  sign ++ toString (n / 100) ++ "." ++
    (if n % 100 < 10 then "0" else "") ++ toString (n % 100)

/-- `Portfolio.summary()` (lines 61-63): joins `"{t}: {q} shares"` for the
dict items with quantity > 0 and substitutes `"No stocks owned"` when the
joined string is empty (falsy). -/
def summary (p : Portfolio) : String :=
  let stock_summary := String.intercalate ", "
    ((p.stocks.filter (fun q => decide (0 < q.2))).map
      (fun q => q.1 ++ ": " ++ toString q.2 ++ " shares"))
  "Balance: $" ++ toFixed2 p.balance ++ " | " ++
    (if stock_summary = "" then "No stocks owned" else stock_summary)

/-- `simulate_prices(stock_data, current_day)` (lines 66-70): the shared
`Date` column has `num_days` distinct values, so
`stock_data['Date'].unique()[current_day]` raises `IndexError` (modelled
`none`) when `current_day` is out of range, and otherwise the filter
selects, for each ticker in order, its price at index `current_day`. -/
def simulate_prices (num_days : Nat) (series : List (List ℚ)) (current_day : Nat) :
    Option (List ℚ) :=
  if current_day < num_days then
    some (series.map (fun s => s.getD current_day 0))
  else
    none

/-- The price lookup performed each frame by `game_loop` (line 93):
`simulate_prices(stock_data, current_day % 100)`, where the data was
generated with `num_days = 100`. -/
def gameLoopPrices (series : List (List ℚ)) (current_day : Nat) : Option (List ℚ) :=
  simulate_prices 100 series (current_day % 100)

/-! ### Helper lemmas about the dict model -/

theorem getQty_map_update (s : List (String × Int)) (t : String) (n : Int) :
    getQty (s.map (fun q => if q.1 == t then (t, n) else q)) t
      = if hasTicker s t then n else 0 := by
  induction s with
  | nil => simp [getQty, hasTicker]
  | cons q rest ih =>
    by_cases hq : (q.1 == t) = true
    · simp only [List.map_cons, if_pos hq, getQty, List.find?_cons, beq_self_eq_true,
        hasTicker, List.any_cons, hq, Bool.true_or, if_true]
    · have hq' : (q.1 == t) = false := by rwa [Bool.not_eq_true] at hq
      simp only [List.map_cons, if_neg hq]
      simp only [getQty, hasTicker, List.find?_cons, List.any_cons, hq', Bool.false_or] at ih ⊢
      exact ih

theorem getQty_append_new (s : List (String × Int)) (t : String) (n : Int)
    (h : hasTicker s t = false) :
    getQty (s ++ [(t, n)]) t = n := by
  induction s with
  | nil => simp [getQty]
  | cons q rest ih =>
    simp only [hasTicker, List.any_cons, Bool.or_eq_false_iff] at h
    simp only [List.cons_append, getQty, List.find?_cons, h.1]
    exact ih (by simpa [hasTicker] using h.2)

theorem getQty_setQty_self (s : List (String × Int)) (t : String) (n : Int) :
    getQty (setQty s t n) t = n := by
  unfold setQty
  by_cases h : hasTicker s t
  · rw [if_pos h, getQty_map_update, if_pos h]
  · rw [if_neg h]
    exact getQty_append_new s t n (by simpa using h)

theorem hasTicker_setQty_self (s : List (String × Int)) (t : String) (n : Int) :
    hasTicker (setQty s t n) t = true := by
  unfold setQty
  by_cases h : hasTicker s t
  · rw [if_pos h]
    unfold hasTicker at h ⊢
    rcases List.any_eq_true.mp h with ⟨q, hq, hqt⟩
    refine List.any_eq_true.mpr ⟨(t, n), List.mem_map.mpr ⟨q, hq, ?_⟩, by simp⟩
    simp [hqt]
  · rw [if_neg h]
    unfold hasTicker
    refine List.any_eq_true.mpr ⟨(t, n), ?_, by simp⟩
    simp

theorem hasTicker_false_getQty (s : List (String × Int)) (t : String)
    (h : hasTicker s t = false) : getQty s t = 0 := by
  unfold getQty
  rw [List.find?_eq_none.mpr]
  intro q hq
  unfold hasTicker at h
  have := List.any_eq_false.mp h q hq
  simpa using this

/-- Shape of a successful `buy_stock` call. -/
theorem buy_stock_of_le (p : Portfolio) (t : String) (price : ℚ) (n : Int)
    (h : price * (n : ℚ) ≤ p.balance) :
    buy_stock p t price n =
      (.bought n t price,
        ⟨p.balance - price * (n : ℚ),
         setQty p.stocks t (getQty p.stocks t + n),
         p.transaction_history ++ [(t, Side.buy, n, price)]⟩) := by
  simp only [buy_stock]
  rw [if_pos h]

/-- Shape of a successful `sell_stock` call. -/
theorem sell_stock_of_le (p : Portfolio) (t : String) (price : ℚ) (n : Int)
    (h : hasTicker p.stocks t ∧ n ≤ getQty p.stocks t) :
    sell_stock p t price n =
      (.sold n t price,
        ⟨p.balance + price * (n : ℚ),
         setQty p.stocks t (getQty p.stocks t - n),
         p.transaction_history ++ [(t, Side.sell, n, price)]⟩) := by
  simp only [sell_stock]
  rw [if_pos h]

theorem genPrices_length (p : ℚ) (l : List ℚ) :
    (genPrices p l).length = l.length + 1 := by
  induction l generalizing p with
  | nil => rfl
  | cons s rest ih => simp [genPrices, ih]

theorem nextPrice_pos (prev shock : ℚ) : 0 < nextPrice prev shock :=
  lt_of_lt_of_le one_pos (le_max_right _ 1)

theorem genPrices_pos (p : ℚ) (l : List ℚ) (hp : 0 < p) :
    ∀ x ∈ genPrices p l, 0 < x := by
  induction l generalizing p with
  | nil =>
    intro x hx
    simp only [genPrices, List.mem_singleton] at hx
    rwa [hx]
  | cons s rest ih =>
    intro x hx
    simp only [genPrices, List.mem_cons] at hx
    rcases hx with rfl | hx
    · exact hp
    · exact ih (nextPrice p s) (nextPrice_pos p s) x hx

theorem tickerPrices_congr (r₁ r₂ : Nat → ℚ) (c nd : Nat) (hnd : 0 < nd)
    (h : ∀ j < nd, r₁ (c + j) = r₂ (c + j)) :
    tickerPrices r₁ c nd = tickerPrices r₂ c nd := by
  unfold tickerPrices
  have h0 : r₁ c = r₂ c := by simpa using h 0 hnd
  rw [h0]
  congr 1
  apply List.map_congr_left
  intro j hj
  have hj' : j < nd - 1 := List.mem_range.mp hj
  have := h (1 + j) (by omega)
  calc r₁ (c + 1 + j) = r₁ (c + (1 + j)) := by ring_nf
    _ = r₂ (c + (1 + j)) := this
    _ = r₂ (c + 1 + j) := by ring_nf

/-! ### Claim theorems -/

/-- C1: for every Portfolio state and every buy request with positive
quantity and price whose total cost `price * quantity` exceeds the cash
balance, `buy_stock` returns the insufficient-funds failure result and
returns the state unchanged: no partial application. -/
theorem buy_insufficient_funds_frame (p : Portfolio) (t : String) (price : ℚ)
    (n : Int) (hq : 0 < n) (hp : 0 < price)
    (h : p.balance < price * (n : ℚ)) :
    buy_stock p t price n = (TradeResult.insufficientFunds, p) := by
  simp only [buy_stock]
  rw [if_neg (not_le.mpr h)]

theorem buy_insufficient_funds_frame_witness :
    buy_stock (Portfolio.init 10) "Stock 1" 100 1
      = (TradeResult.insufficientFunds, Portfolio.init 10) :=
  buy_insufficient_funds_frame (Portfolio.init 10) "Stock 1" 100 1
    (by norm_num) (by norm_num) (by norm_num [Portfolio.init])

/-- C2: for every Portfolio state and every sell request with positive
quantity and price where the held quantity of the ticker (0 when never
held) is below the requested quantity, `sell_stock` returns the
insufficient-shares failure result and returns the state unchanged; and a
ticker that is not a key of the holdings dict carries quantity 0, so a
never-held ticker behaves exactly like holding 0 shares. -/
theorem sell_insufficient_shares_frame (p : Portfolio) (t : String) (price : ℚ)
    (n : Int) (hq : 0 < n) (hp : 0 < price)
    (h : getQty p.stocks t < n) :
    sell_stock p t price n = (TradeResult.insufficientShares, p) ∧
      (hasTicker p.stocks t = false → getQty p.stocks t = 0) := by
  constructor
  · simp only [sell_stock]
    rw [if_neg]
    rintro ⟨-, hle⟩
    exact absurd h (not_lt.mpr hle)
  · exact hasTicker_false_getQty p.stocks t

theorem sell_insufficient_shares_frame_witness :
    sell_stock (Portfolio.init 10000) "Stock 1" 5 1
        = (TradeResult.insufficientShares, Portfolio.init 10000) ∧
      (hasTicker (Portfolio.init 10000).stocks "Stock 1" = false →
        getQty (Portfolio.init 10000).stocks "Stock 1" = 0) :=
  sell_insufficient_shares_frame (Portfolio.init 10000) "Stock 1" 5 1
    (by norm_num) (by norm_num) (by simp [Portfolio.init, getQty])

/-- C4: from any Portfolio state whose recorded holding for `t` is
non-negative (the data-model invariant), for any positive quantity and
price such that the buy succeeds, buying then selling the same quantity
at the same price restores the cash balance and the holding of `t` to
their values before the buy. -/
theorem buy_sell_roundtrip (p : Portfolio) (t : String) (P : ℚ) (n : Int)
    (hq : 0 < n) (hp : 0 < P) (hinv : 0 ≤ getQty p.stocks t)
    (hbuy : P * (n : ℚ) ≤ p.balance) :
    (sell_stock (buy_stock p t P n).2 t P n).2.balance = p.balance ∧
      getQty (sell_stock (buy_stock p t P n).2 t P n).2.stocks t
        = getQty p.stocks t := by
  rw [buy_stock_of_le p t P n hbuy]
  have hcond : hasTicker (setQty p.stocks t (getQty p.stocks t + n)) t ∧
      n ≤ getQty (setQty p.stocks t (getQty p.stocks t + n)) t := by
    refine ⟨hasTicker_setQty_self _ _ _, ?_⟩
    rw [getQty_setQty_self]
    omega
  rw [sell_stock_of_le _ t P n hcond]
  constructor
  · ring
  · rw [getQty_setQty_self, getQty_setQty_self]
    omega

theorem buy_sell_roundtrip_witness :
    (sell_stock (buy_stock (Portfolio.init 1000) "Stock 1" 10 3).2 "Stock 1" 10 3).2.balance
        = (Portfolio.init 1000).balance ∧
      getQty (sell_stock (buy_stock (Portfolio.init 1000) "Stock 1" 10 3).2 "Stock 1" 10 3).2.stocks "Stock 1"
        = getQty (Portfolio.init 1000).stocks "Stock 1" :=
  buy_sell_roundtrip (Portfolio.init 1000) "Stock 1" 10 3
    (by norm_num) (by norm_num) (by simp [Portfolio.init, getQty])
    (by norm_num [Portfolio.init])

/-- C10: a failed buy or sell returns the state unchanged, its
transaction history included; a successful buy or sell appends exactly
one record `(ticker, side, quantity, price)` at the end of the history,
leaving all previously appended records unchanged. -/
theorem trade_history_frame (p : Portfolio) (t : String) (pr : ℚ) (n : Int) :
    (¬ pr * (n : ℚ) ≤ p.balance → (buy_stock p t pr n).2 = p) ∧
      (pr * (n : ℚ) ≤ p.balance →
        (buy_stock p t pr n).2.transaction_history
          = p.transaction_history ++ [(t, Side.buy, n, pr)]) ∧
      (¬ (hasTicker p.stocks t ∧ n ≤ getQty p.stocks t) →
        (sell_stock p t pr n).2 = p) ∧
      ((hasTicker p.stocks t ∧ n ≤ getQty p.stocks t) →
        (sell_stock p t pr n).2.transaction_history
          = p.transaction_history ++ [(t, Side.sell, n, pr)]) := by
  refine ⟨fun h => ?_, fun h => ?_, fun h => ?_, fun h => ?_⟩
  · simp only [buy_stock]
    rw [if_neg h]
  · rw [buy_stock_of_le p t pr n h]
  · simp only [sell_stock]
    rw [if_neg h]
  · rw [sell_stock_of_le p t pr n h]

theorem trade_history_frame_witness :
    (buy_stock (Portfolio.init 10) "Stock 1" 100 1).2 = Portfolio.init 10 ∧
      (buy_stock (Portfolio.init 1000) "Stock 1" 100 1).2.transaction_history
        = (Portfolio.init 1000).transaction_history
            ++ [("Stock 1", Side.buy, 1, 100)] ∧
      (sell_stock (Portfolio.init 10) "Stock 1" 100 1).2 = Portfolio.init 10 ∧
      (sell_stock (⟨1000, [("Stock 1", 2)], []⟩ : Portfolio) "Stock 1" 100 1).2.transaction_history
        = (⟨1000, [("Stock 1", 2)], []⟩ : Portfolio).transaction_history
            ++ [("Stock 1", Side.sell, 1, 100)] :=
  ⟨(trade_history_frame (Portfolio.init 10) "Stock 1" 100 1).1
      (by norm_num [Portfolio.init]),
    (trade_history_frame (Portfolio.init 1000) "Stock 1" 100 1).2.1
      (by norm_num [Portfolio.init]),
    (trade_history_frame (Portfolio.init 10) "Stock 1" 100 1).2.2.1
      (by simp [Portfolio.init, hasTicker]),
    (trade_history_frame (⟨1000, [("Stock 1", 2)], []⟩ : Portfolio) "Stock 1" 100 1).2.2.2
      (by refine ⟨by simp [hasTicker], ?_⟩
          simp [getQty])⟩

/-- C9: from a fresh Portfolio with cash 10000, buying 3 shares of
`Stock 1` at 100 succeeds leaving cash 9700 and holding 3; selling 5 at
110 then fails with insufficient shares leaving the state unchanged;
selling 3 at 110 then succeeds leaving cash 10030 and holding 0. -/
theorem scenario_stock1 :
    buy_stock (Portfolio.init 10000) "Stock 1" 100 3
        = (TradeResult.bought 3 "Stock 1" 100,
            ⟨9700, [("Stock 1", 3)], [("Stock 1", Side.buy, 3, 100)]⟩) ∧
      sell_stock ⟨9700, [("Stock 1", 3)], [("Stock 1", Side.buy, 3, 100)]⟩
          "Stock 1" 110 5
        = (TradeResult.insufficientShares,
            ⟨9700, [("Stock 1", 3)], [("Stock 1", Side.buy, 3, 100)]⟩) ∧
      sell_stock ⟨9700, [("Stock 1", 3)], [("Stock 1", Side.buy, 3, 100)]⟩
          "Stock 1" 110 3
        = (TradeResult.sold 3 "Stock 1" 110,
            ⟨10030, [("Stock 1", 0)],
              [("Stock 1", Side.buy, 3, 100), ("Stock 1", Side.sell, 3, 110)]⟩) := by
  refine ⟨?_, ?_, ?_⟩
  · rw [buy_stock_of_le _ _ _ _ (by norm_num [Portfolio.init])]
    norm_num [Portfolio.init, Prod.mk.injEq, Portfolio.mk.injEq, setQty, getQty,
      hasTicker]
  · simp only [sell_stock]
    rw [if_neg (by decide)]
  · rw [sell_stock_of_le _ _ _ _ (by exact ⟨by decide, by decide⟩)]
    norm_num [Prod.mk.injEq, Portfolio.mk.injEq, setQty, getQty, hasTicker]

/-- C5: the per-frame price lookup of the game loop reduces the day
cursor modulo the length 100 of the generated series, so requesting day
100 of a 100-day series yields the same prices as day 0, the lookup is
100-periodic in the day cursor, and it always yields a price row (never
the out-of-range failure of a raw `simulate_prices` call). -/
theorem day_cursor_wraparound (r : Nat → ℚ) (d : Nat) :
    gameLoopPrices (generateSeries r 5 100) 100
        = gameLoopPrices (generateSeries r 5 100) 0 ∧
      gameLoopPrices (generateSeries r 5 100) (d + 100)
        = gameLoopPrices (generateSeries r 5 100) d ∧
      gameLoopPrices (generateSeries r 5 100) d
        = simulate_prices 100 (generateSeries r 5 100) (d % 100) ∧
      ∃ row, gameLoopPrices (generateSeries r 5 100) d = some row := by
  refine ⟨by norm_num [gameLoopPrices], ?_, rfl, ?_⟩
  · unfold gameLoopPrices
    rw [Nat.add_mod_right]
  · unfold gameLoopPrices simulate_prices
    rw [if_pos (Nat.mod_lt _ (by norm_num))]
    exact ⟨_, rfl⟩

/-- C3: whenever the generator returns a series (so ticker and day counts
were positive), every price of every per-ticker sequence is strictly
positive: the initial draws are `uniform(50, 150)` values, so they are at
least 50, and each later price is floored at the positive constant 1, no
matter how negative the shock draws are. The hypothesis constrains only
the raw initial draws (position `i * num_days` of the stream), which lie
in `[0, 1)`; shock draws are unconstrained. -/
theorem generated_prices_positive (r : Nat → ℚ) (ns : Nat) (nd : Int)
    (out : List (List ℚ))
    (hr : ∀ i < ns, 0 ≤ r (i * nd.toNat))
    (hgen : generate_realistic_stock_data r ns nd = .ok out) :
    ∀ s ∈ out, ∀ price ∈ s, 0 < price := by
  unfold generate_realistic_stock_data at hgen
  by_cases h0 : ns = 0
  · rw [if_pos h0] at hgen
    cases hgen
  rw [if_neg h0] at hgen
  by_cases h1 : nd ≤ 0
  · rw [if_pos h1] at hgen
    cases hgen
  rw [if_neg h1] at hgen
  injection hgen with hgen
  subst hgen
  intro s hs
  unfold generateSeries at hs
  rcases List.mem_map.mp hs with ⟨i, hi, rfl⟩
  have hi' : i < ns := List.mem_range.mp hi
  apply genPrices_pos
  unfold randUniform
  nlinarith [hr i hi']

theorem generated_prices_positive_witness :
    (∀ i < 1, (0:ℚ) ≤ (fun j => if j = 0 then (0:ℚ) else -10) (i * (2:Int).toNat)) ∧
      ∀ s ∈ [[(50:ℚ), 1]], ∀ price ∈ s, 0 < price := by
  have h1 : randUniform 50 150 (0:ℚ) = 50 := by norm_num [randUniform]
  have h2 : nextPrice 50 (-10:ℚ) = 1 := by
    unfold nextPrice
    rw [max_eq_right (by norm_num)]
  have h3 : genPrices (50:ℚ) [-10] = [50, 1] := by
    simp only [genPrices, h2]
  have hgen : generate_realistic_stock_data
      (fun j => if j = 0 then (0:ℚ) else -10) 1 2 = .ok [[(50:ℚ), 1]] := by
    have hbase : generate_realistic_stock_data
        (fun j => if j = 0 then (0:ℚ) else -10) 1 2
        = .ok [genPrices (randUniform 50 150 0) [(-10:ℚ)]] := rfl
    rw [hbase, h1, h3]
  exact ⟨by decide,
    generated_prices_positive (fun j => if j = 0 then (0:ℚ) else -10) 1 2
      [[(50:ℚ), 1]] (by decide) hgen⟩

/-- C6 counterexample: called with `ticker_count = 0` or `day_count = 0`
the generator does not produce the InvalidParameter rejection the claim
describes; it raises an uncaught pandas `ValueError`. -/
theorem generator_rejection_counterexample :
    generate_realistic_stock_data (fun _ => 0) 0 100 = .valueError ∧
      generate_realistic_stock_data (fun _ => 0) 0 100 ≠ .invalidParameter ∧
      generate_realistic_stock_data (fun _ => 0) 5 0 = .valueError ∧
      generate_realistic_stock_data (fun _ => 0) 5 0 ≠ .invalidParameter :=
  ⟨rfl, by decide, rfl, by decide⟩

/-- C6 amended: the generator performs no input validation of its own:
`ticker_count = 0` or `day_count ≤ 0` end in an uncaught `ValueError`
from pandas, never in an `InvalidParameter` result (which no code path
produces) and never in a silently empty or truncated series; for all
positive inputs it returns one ordered price sequence per ticker, each
of length `day_count`. -/
theorem generator_input_handling (r : Nat → ℚ) (ns : Nat) (nd : Int) :
    (ns = 0 ∨ nd ≤ 0 → generate_realistic_stock_data r ns nd = .valueError) ∧
      generate_realistic_stock_data r ns nd ≠ .invalidParameter ∧
      (0 < ns → 0 < nd →
        ∃ out, generate_realistic_stock_data r ns nd = .ok out ∧
          out.length = ns ∧ ∀ s ∈ out, s.length = nd.toNat) := by
  refine ⟨?_, ?_, ?_⟩
  · intro h
    unfold generate_realistic_stock_data
    rcases h with h | h
    · rw [if_pos h]
    · by_cases h0 : ns = 0
      · rw [if_pos h0]
      · rw [if_neg h0, if_pos h]
  · unfold generate_realistic_stock_data
    split
    · simp
    · split
      · simp
      · simp
  · intro hns hnd
    unfold generate_realistic_stock_data
    rw [if_neg (Nat.pos_iff_ne_zero.mp hns), if_neg (not_le.mpr hnd)]
    refine ⟨_, rfl, ?_, ?_⟩
    · unfold generateSeries
      simp
    · intro s hs
      unfold generateSeries at hs
      rcases List.mem_map.mp hs with ⟨i, hi, rfl⟩
      unfold tickerPrices
      rw [genPrices_length]
      simp only [List.length_map, List.length_range]
      omega

theorem generator_input_handling_witness :
    generate_realistic_stock_data (fun _ => (0:ℚ)) 0 100 = .valueError ∧
      ∃ out, generate_realistic_stock_data (fun _ => (0:ℚ)) 2 3 = .ok out ∧
        out.length = 2 ∧ ∀ s ∈ out, s.length = (3:Int).toNat :=
  ⟨(generator_input_handling (fun _ => (0:ℚ)) 0 100).1 (Or.inl rfl),
    (generator_input_handling (fun _ => (0:ℚ)) 2 3).2.2 (by norm_num) (by norm_num)⟩

/-- C7: the generator output is a function of the realized RNG draw
stream alone, and it consumes only the first
`ticker_count * day_count` draws: two runs whose streams agree on that
prefix (in particular two runs seeded identically, whose streams agree
everywhere) return identical series. -/
theorem generator_deterministic (r₁ r₂ : Nat → ℚ) (ns : Nat) (nd : Int)
    (h : ∀ i < ns * nd.toNat, r₁ i = r₂ i) :
    generate_realistic_stock_data r₁ ns nd
      = generate_realistic_stock_data r₂ ns nd := by
  unfold generate_realistic_stock_data
  by_cases h0 : ns = 0
  · rw [if_pos h0, if_pos h0]
  rw [if_neg h0, if_neg h0]
  by_cases h1 : nd ≤ 0
  · rw [if_pos h1, if_pos h1]
  rw [if_neg h1, if_neg h1]
  congr 1
  unfold generateSeries
  apply List.map_congr_left
  intro i hi
  have hi' : i < ns := List.mem_range.mp hi
  have hnd : 0 < nd.toNat := by omega
  apply tickerPrices_congr _ _ _ _ hnd
  intro j hj
  apply h
  calc i * nd.toNat + j < i * nd.toNat + nd.toNat := by omega
    _ = (i + 1) * nd.toNat := by ring
    _ ≤ ns * nd.toNat := Nat.mul_le_mul_right _ (by omega)

theorem intercalate_go_length (s : String) (as : List String) :
    ∀ acc : String, acc.length ≤ (String.intercalate.go acc s as).length := by
  induction as with
  | nil =>
    intro acc
    simp [String.intercalate.go]
  | cons b bs ih =>
    intro acc
    have hstep : String.intercalate.go acc s (b :: bs)
        = String.intercalate.go (acc ++ s ++ b) s bs := rfl
    rw [hstep]
    calc acc.length ≤ (acc ++ s ++ b).length := by
          rw [String.length_append, String.length_append]
          omega
      _ ≤ _ := ih (acc ++ s ++ b)

theorem intercalate_ne_empty (s a : String) (as : List String) (ha : a ≠ "") :
    String.intercalate s (a :: as) ≠ "" := by
  intro hcontra
  have hlen : a.length ≤ (String.intercalate s (a :: as)).length :=
    intercalate_go_length s as a
  rw [hcontra] at hlen
  have h0 : ("" : String).length = 0 := rfl
  rw [h0] at hlen
  apply ha
  have hdata : a.data.length = 0 := by
    have : a.length = 0 := by omega
    exact this
  exact String.ext (List.length_eq_zero.mp hdata)

theorem summary_item_ne_empty (x : String) (n : Int) :
    x ++ ": " ++ toString n ++ " shares" ≠ "" := by
  intro h
  have hlen : (x ++ ": " ++ toString n ++ " shares").length = 0 := by
    rw [h]
    rfl
  rw [String.length_append, String.length_append, String.length_append] at hlen
  have h7 : (" shares").length = 7 := rfl
  omega

/-- C8 counterexample: on a fresh Portfolio with initial cash 10000,
`summary()` returns the exact string
`Balance: $10000.00 | No stocks owned`; the text `no holdings` the claim
names occurs nowhere in it. -/
theorem summary_no_holdings_counterexample :
    summary (Portfolio.init 10000) = "Balance: $10000.00 | No stocks owned" ∧
      ¬ ("no holdings".toList <:+: (summary (Portfolio.init 10000)).toList) := by
  have hr : round (|(10000:ℚ)| * 100) = 1000000 := by
    rw [show |(10000:ℚ)| * 100 = ((1000000 : ℤ) : ℚ) by norm_num, round_intCast]
  have hfix : toFixed2 10000 = "10000.00" := by
    simp only [toFixed2, hr]
    rw [if_neg (by norm_num : ¬ (10000:ℚ) < 0)]
    rfl
  have hbase : summary (Portfolio.init 10000)
      = "Balance: $" ++ toFixed2 10000 ++ " | " ++ "No stocks owned" := rfl
  have hsum : summary (Portfolio.init 10000)
      = "Balance: $10000.00 | No stocks owned" := by
    rw [hbase, hfix]
    rfl
  refine ⟨hsum, ?_⟩
  rw [hsum]
  decide

/-- C8 amended: `summary()` on a fresh Portfolio with initial cash C
reports exactly the balance C and the text `No stocks owned` (not
`no holdings`); in general it lists exactly the tickers with quantity
greater than 0, in insertion order, and shows the `No stocks owned`
placeholder instead of an empty list when no ticker has positive
quantity. -/
theorem summary_reports (C : ℚ) (p : Portfolio) :
    summary ⟨C, [], []⟩ = "Balance: $" ++ toFixed2 C ++ " | " ++ "No stocks owned" ∧
      (p.stocks.filter (fun q => decide (0 < q.2)) = [] →
        summary p = "Balance: $" ++ toFixed2 p.balance ++ " | " ++ "No stocks owned") ∧
      (∀ a l, p.stocks.filter (fun q => decide (0 < q.2)) = a :: l →
        summary p = "Balance: $" ++ toFixed2 p.balance ++ " | " ++
          String.intercalate ", "
            ((a :: l).map (fun q => q.1 ++ ": " ++ toString q.2 ++ " shares"))) := by
  refine ⟨rfl, ?_, ?_⟩
  · intro hfilt
    simp only [summary, hfilt, List.map_nil]
    rfl
  · intro a l hfilt
    simp only [summary, hfilt, List.map_cons]
    rw [if_neg (intercalate_ne_empty ", " _ _ (summary_item_ne_empty a.1 a.2))]

theorem summary_reports_witness :
    ((⟨9700, [("Stock 1", 0)], []⟩ : Portfolio).stocks.filter
        (fun q => decide (0 < q.2)) = [] ∧
      summary (⟨9700, [("Stock 1", 0)], []⟩ : Portfolio)
        = "Balance: $" ++ toFixed2 9700 ++ " | " ++ "No stocks owned") ∧
      ((⟨9700, [("Stock 1", 3)], []⟩ : Portfolio).stocks.filter
          (fun q => decide (0 < q.2)) = [("Stock 1", 3)] ∧
        summary (⟨9700, [("Stock 1", 3)], []⟩ : Portfolio)
          = "Balance: $" ++ toFixed2 9700 ++ " | " ++
              String.intercalate ", "
                ([("Stock 1", (3:Int))].map
                  (fun q => q.1 ++ ": " ++ toString q.2 ++ " shares"))) :=
  ⟨⟨by decide,
      (summary_reports 9700 (⟨9700, [("Stock 1", 0)], []⟩ : Portfolio)).2.1 (by decide)⟩,
    ⟨by decide,
      (summary_reports 9700 (⟨9700, [("Stock 1", 3)], []⟩ : Portfolio)).2.2
        ("Stock 1", 3) [] (by decide)⟩⟩

theorem generator_deterministic_witness :
    (∀ i < 1 * (2:Int).toNat,
        (fun _ => (0:ℚ)) i = (fun j => if j < 2 then (0:ℚ) else 99) i) ∧
      generate_realistic_stock_data (fun _ => (0:ℚ)) 1 2
        = generate_realistic_stock_data (fun j => if j < 2 then (0:ℚ) else 99) 1 2 :=
  ⟨by decide,
    generator_deterministic (fun _ => (0:ℚ)) (fun j => if j < 2 then (0:ℚ) else 99)
      1 2 (by decide)⟩

end StockSim
